/-
Verification development for the `alphafold2` trunk
(src/alphafold2/alphafold2.py).

The Python module is a pure tensor program: embeddings, a pre-normalised
attention / feed-forward stack over two parallel tracks (a pairwise grid
and a flattened MSA), and a final linear projection to distogram logits.

Modelling conventions (shallow embedding):
* Scalars are `ℚ`.  The transcendental primitives the code delegates to
  the tensor library (`exp` inside softmax, `gelu`, `sqrt` inside
  LayerNorm, and the `dim_head ** -0.5` scale) are fields of a `Prims`
  bundle: every claim proved here holds for an arbitrary interpretation
  of those primitives (positivity of `exp` is assumed where a claim
  needs it), and witnesses instantiate them with concrete computable
  functions.
* Tensors are curried functions out of `Fin`-indexed types.  An einops
  axis fold such as `'b h w d -> (b w) h d'` is modelled by the product
  index type `Fin b × Fin w` (the einops fold is exactly this
  bijection, row-major), and `'b m n d -> b (m n) d'` by
  `finProdFinEquiv : Fin m × Fin n ≃ Fin (m * n)`.
* Dropout is modelled in evaluation mode (identity); the construction
  sites use the default rate 0 and every claim is about the
  deterministic forward computation.
* Error behaviour (embedding index range, mask broadcasting) is
  modelled by a separate shape/range semantics returning `Option`,
  mirroring the PyTorch broadcasting rules; the value-level semantics
  describes the successful executions.
-/
import Mathlib

/-- Constant `NUM_AMINO_ACIDS` from the source. -/
def NUM_AMINO_ACIDS : ℕ := 21

/-- Constant `DISTOGRAM_BUCKETS` from the source. -/
def DISTOGRAM_BUCKETS : ℕ := 37

/-- Exact rational value of `torch.finfo(torch.float32).max`
(the tensors in the module are created in the default dtype, float32);
`3.4028234663852886e38 = (2 - 2^-23) * 2^127 = (2^24 - 1) * 2^104`. -/
def torchFloat32Max : ℚ := (2 ^ 24 - 1) * 2 ^ 104

/-- The fill value `mask_value = -torch.finfo(dots.dtype).max` used in
`Attention.forward`.  It is a (very negative) finite value, not `-∞`. -/
def mask_value : ℚ := -torchFloat32Max

/-- Default `eps` of `torch.nn.LayerNorm`, `1e-5`. -/
def lnEps : ℚ := 1 / 100000

namespace Val

/-- Primitive numerical functions the Python code delegates to the
tensor library.  Keeping them abstract makes every structural theorem
below hold for any interpretation (in particular the real `exp`,
`gelu`, `sqrt`); concrete witnesses instantiate them. -/
structure Prims where
  exp : ℚ → ℚ
  gelu : ℚ → ℚ
  sqrt : ℚ → ℚ
  /-- Interpretation of `dim_head ** -0.5` (the attention scale). -/
  rsqrt : ℕ → ℚ

/-- Learned parameters of `nn.LayerNorm(dim)`: elementwise scale `g`
(torch `weight`) and shift `b` (torch `bias`). -/
structure LNParams (d : ℕ) where
  g : Fin d → ℚ
  b : Fin d → ℚ

/-- `nn.LayerNorm(dim)` on one feature vector:
`(x - mean) / sqrt(var + eps) * weight + bias`, with biased variance,
exactly as torch computes over the last axis. -/
def lnVec (P : Prims) {d : ℕ} (ln : LNParams d) (v : Fin d → ℚ) : Fin d → ℚ :=
  let μ : ℚ := (∑ k, v k) / d
  let σ2 : ℚ := (∑ k, (v k - μ) ^ 2) / d
  fun k => ln.g k * ((v k - μ) / P.sqrt (σ2 + lnEps)) + ln.b k

/-- Parameters of `FeedForward(dim, mult)`:
`nn.Linear(dim, dim*mult*2)` followed (after GEGLU and dropout) by
`nn.Linear(dim*mult, dim)`.  The first linear's output axis of size
`dim*mult*2` is indexed here as `Fin 2 × Fin (mult*d)` following the
`chunk(2, dim = -1)` split performed by GEGLU (chunk index `0` is the
value half `x`, chunk index `1` is the `gates` half). -/
structure FFParams (d mult : ℕ) where
  W1 : Fin 2 → Fin (mult * d) → Fin d → ℚ
  b1 : Fin 2 → Fin (mult * d) → ℚ
  W2 : Fin d → Fin (mult * d) → ℚ
  b2 : Fin d → ℚ

namespace FeedForward

/-- `FeedForward.forward` on one feature vector: first linear, GEGLU
(`x * gelu(gates)`), dropout (identity in eval mode), second linear. -/
def net (P : Prims) {d mult : ℕ} (p : FFParams d mult) (v : Fin d → ℚ) :
    Fin d → ℚ :=
  let z : Fin 2 → Fin (mult * d) → ℚ :=
    fun c o => (∑ k, p.W1 c o k * v k) + p.b1 c o
  let g : Fin (mult * d) → ℚ := fun o => z 0 o * P.gelu (z 1 o)
  fun o => (∑ k, p.W2 o k * g k) + p.b2 o

end FeedForward

/-- Learned parameters of `Attention(dim, heads, dim_head)`.
`to_qkv = nn.Linear(dim, heads*dim_head*3, bias=False)` has its output
axis indexed as `Fin h × Fin 3 × Fin dh`, following the rearrange
`'b n (h qkv d) -> b h n qkv d'` (so component `0` is `q`, `1` is `k`,
`2` is `v`); `to_out = nn.Linear(heads*dim_head, dim)` has its input
axis indexed as `Fin h × Fin dh` following `'b h n d -> b n (h d)'`. -/
structure AttnParams (d h dh : ℕ) where
  Wqkv : Fin h → Fin 3 → Fin dh → Fin d → ℚ
  Wout : Fin d → Fin h → Fin dh → ℚ
  bout : Fin d → ℚ

namespace Attention

variable (P : Prims) {β : Type} {n d h dh : ℕ}

/-- The query heads produced by `to_qkv` and the rearrange/unbind. -/
def qs (p : AttnParams d h dh) (x : β → Fin n → Fin d → ℚ) :
    β → Fin h → Fin n → Fin dh → ℚ :=
  fun b hi i dd => ∑ k, p.Wqkv hi 0 dd k * x b i k

/-- The key heads produced by `to_qkv` and the rearrange/unbind. -/
def ks (p : AttnParams d h dh) (x : β → Fin n → Fin d → ℚ) :
    β → Fin h → Fin n → Fin dh → ℚ :=
  fun b hi i dd => ∑ k, p.Wqkv hi 1 dd k * x b i k

/-- The value heads produced by `to_qkv` and the rearrange/unbind. -/
def vs (p : AttnParams d h dh) (x : β → Fin n → Fin d → ℚ) :
    β → Fin h → Fin n → Fin dh → ℚ :=
  fun b hi i dd => ∑ k, p.Wqkv hi 2 dd k * x b i k

/-- `dots = einsum('b h i d, b h j d -> b h i j', q, k) * self.scale`
with `scale = dim_head ** -0.5`. -/
def dots (p : AttnParams d h dh) (x : β → Fin n → Fin d → ℚ) :
    β → Fin h → Fin n → Fin n → ℚ :=
  fun b hi i j => (∑ dd, qs p x b hi i dd * ks p x b hi j dd) * P.rsqrt dh

/-- The mask combination
`mask[:, None, :, None] * mask[:, None, None, :]` (a product of boolean
tensors is logical AND; the two unsqueezed copies broadcast to an outer
conjunction over the query/key axes, and the singleton head axis
broadcasts over all heads). -/
def combineMask (mask : β → Fin n → Bool) : β → Fin n → Fin n → Bool :=
  fun b i j => mask b i && mask b j

/-- The pre-softmax scores: `dots` after the in-place
`dots.masked_fill_(~mask, mask_value)` when a mask is supplied,
plain `dots` otherwise. -/
def scores (p : AttnParams d h dh) (x : β → Fin n → Fin d → ℚ)
    (mask : Option (β → Fin n → Bool)) : β → Fin h → Fin n → Fin n → ℚ :=
  match mask with
  | none => dots P p x
  | some m => fun b hi i j =>
      if !combineMask m b i j then mask_value else dots P p x b hi i j

/-- `attn = dots.softmax(dim = -1)` (dropout on the weights is the
identity in eval mode): softmax along the key axis. -/
def weights (p : AttnParams d h dh) (x : β → Fin n → Fin d → ℚ)
    (mask : Option (β → Fin n → Bool)) : β → Fin h → Fin n → Fin n → ℚ :=
  fun b hi i j =>
    P.exp (scores P p x mask b hi i j) /
      ∑ j', P.exp (scores P p x mask b hi i j')

/-- `out = einsum('b h i j, b h j d -> b h i d', attn, v)`. -/
def headOut (p : AttnParams d h dh) (x : β → Fin n → Fin d → ℚ)
    (mask : Option (β → Fin n → Bool)) : β → Fin h → Fin n → Fin dh → ℚ :=
  fun b hi i dd => ∑ j, weights P p x mask b hi i j * vs p x b hi j dd

/-- `Attention.forward`: the full pipeline, ending with the rearrange
`'b h n d -> b n (h d)'` and `to_out`. -/
def forward (p : AttnParams d h dh) (x : β → Fin n → Fin d → ℚ)
    (mask : Option (β → Fin n → Bool)) : β → Fin n → Fin d → ℚ :=
  fun b i o =>
    (∑ hd : Fin h × Fin dh,
        p.Wout o hd.1 hd.2 * headOut P p x mask b hd.1 i hd.2) + p.bout o

end Attention

/-- Parameters of `AxialAttention`: two independent `Attention` blocks.
(Note: in the source, `attn_width` is the block receiving the fold
`'b h w d -> (b w) h d'`, i.e. it attends along the `h` axis; the
semantics below reproduces the code, not the field names.) -/
structure AxialParams (d h dh : ℕ) where
  attn_width : AttnParams d h dh
  attn_height : AttnParams d h dh

namespace AxialAttention

variable (P : Prims) {b hh ww d h dh : ℕ}

/-- `AxialAttention.forward` with `mask = None` (the path the trunk
takes when no sequence mask is given): fold one grid axis into the
batch, attend along the other with `attn_width`, unfold; same with the
axes swapped and `attn_height`; sum the two results. -/
def forward (p : AxialParams d h dh)
    (x : Fin b → Fin hh → Fin ww → Fin d → ℚ) :
    Fin b → Fin hh → Fin ww → Fin d → ℚ :=
  let w_x : (Fin b × Fin ww) → Fin hh → Fin d → ℚ :=
    fun bw i k => x bw.1 i bw.2 k
  let w_out := Attention.forward P p.attn_width w_x none
  let h_x : (Fin b × Fin hh) → Fin ww → Fin d → ℚ :=
    fun bh j k => x bh.1 bh.2 j k
  let h_out := Attention.forward P p.attn_height h_x none
  fun bi i j k => w_out (bi, j) i k + h_out (bi, i) j k

/-- `AxialAttention.forward` with a mask, in the only case in which the
in-place `masked_fill_` broadcasts (square grid, batch 1; see the shape
semantics): the `(b, n)` mask, whose combination keeps batch dimension
1, broadcasts over the folded batch axis, so every folded row reuses
the same mask. -/
def forwardMasked {n : ℕ} (p : AxialParams d h dh)
    (x : Fin 1 → Fin n → Fin n → Fin d → ℚ)
    (mask : Fin 1 → Fin n → Bool) :
    Fin 1 → Fin n → Fin n → Fin d → ℚ :=
  let w_x : (Fin 1 × Fin n) → Fin n → Fin d → ℚ :=
    fun bw i k => x bw.1 i bw.2 k
  let w_out := Attention.forward P p.attn_width w_x (some fun bw j => mask bw.1 j)
  let h_x : (Fin 1 × Fin n) → Fin n → Fin d → ℚ :=
    fun bh j k => x bh.1 bh.2 j k
  let h_out := Attention.forward P p.attn_height h_x (some fun bh j => mask bh.1 j)
  fun bi i j k => w_out (bi, j) i k + h_out (bi, i) j k

/-- Spec-side definition (from the spec's words, for claim C8): the
1-D attention pass that folds the second grid axis into the batch,
attends along the first with the first block, and reshapes back. -/
def widthPass (p : AxialParams d h dh)
    (x : Fin b → Fin hh → Fin ww → Fin d → ℚ) :
    Fin b → Fin hh → Fin ww → Fin d → ℚ :=
  fun bi i j k =>
    Attention.forward P p.attn_width
      (fun (bw : Fin b × Fin ww) i' k' => x bw.1 i' bw.2 k') none (bi, j) i k

/-- Spec-side definition (for claim C8): the 1-D attention pass that
folds the first grid axis into the batch, attends along the second with
the second block, and reshapes back. -/
def heightPass (p : AxialParams d h dh)
    (x : Fin b → Fin hh → Fin ww → Fin d → ℚ) :
    Fin b → Fin hh → Fin ww → Fin d → ℚ :=
  fun bi i j k =>
    Attention.forward P p.attn_height
      (fun (bh : Fin b × Fin hh) j' k' => x bh.1 bh.2 j' k') none (bi, i) j k

/-- Spec-side masked width pass (batch 1, square grid). -/
def widthPassMasked {n : ℕ} (p : AxialParams d h dh)
    (x : Fin 1 → Fin n → Fin n → Fin d → ℚ)
    (mask : Fin 1 → Fin n → Bool) :
    Fin 1 → Fin n → Fin n → Fin d → ℚ :=
  fun bi i j k =>
    Attention.forward P p.attn_width
      (fun (bw : Fin 1 × Fin n) i' k' => x bw.1 i' bw.2 k')
      (some fun bw j' => mask bw.1 j') (bi, j) i k

/-- Spec-side masked height pass (batch 1, square grid). -/
def heightPassMasked {n : ℕ} (p : AxialParams d h dh)
    (x : Fin 1 → Fin n → Fin n → Fin d → ℚ)
    (mask : Fin 1 → Fin n → Bool) :
    Fin 1 → Fin n → Fin n → Fin d → ℚ :=
  fun bi i j k =>
    Attention.forward P p.attn_height
      (fun (bh : Fin 1 × Fin n) j' k' => x bh.1 bh.2 j' k')
      (some fun bh j' => mask bh.1 j') (bi, i) j k

end AxialAttention

/-- One element of `Alphafold2.self.layers`: a `nn.ModuleList` of three
pre-normalised blocks.  The forward loop destructures it as
`(attn, cross_attn, ff)`. -/
structure XLayer (d h dh : ℕ) where
  attn : LNParams d × AxialParams d h dh
  cross_attn : LNParams d × AxialParams d h dh
  ff : LNParams d × FFParams d 4

/-- One element of `Alphafold2.self.msa_layers`, destructured by the
forward loop as `(msa_attn, msa_cross_attn, msa_ff)`. -/
structure MsaLayer (d h dh : ℕ) where
  attn : LNParams d × AttnParams d h dh
  cross_attn : LNParams d × AttnParams d h dh
  ff : LNParams d × FFParams d 4

variable {b n mm nn d h dh : ℕ}

/-- `PreNorm` wrapping `AxialAttention` (no mask), on the 4-D pairwise
grid: normalise the last axis, then run the inner block. -/
def preNormAxial (P : Prims) (lp : LNParams d × AxialParams d h dh)
    (x : Fin b → Fin n → Fin n → Fin d → ℚ) :
    Fin b → Fin n → Fin n → Fin d → ℚ :=
  AxialAttention.forward P lp.2 (fun bi i j => lnVec P lp.1 (x bi i j))

/-- `PreNorm` wrapping `Attention`, on a 3-D sequence tensor. -/
def preNormAttn (P : Prims) {β : Type} {ns : ℕ}
    (lp : LNParams d × AttnParams d h dh)
    (x : β → Fin ns → Fin d → ℚ) (mask : Option (β → Fin ns → Bool)) :
    β → Fin ns → Fin d → ℚ :=
  Attention.forward P lp.2 (fun bi i => lnVec P lp.1 (x bi i)) mask

/-- `PreNorm` wrapping `FeedForward`, on the 4-D pairwise grid. -/
def preNormFF4 (P : Prims) (lp : LNParams d × FFParams d 4)
    (x : Fin b → Fin n → Fin n → Fin d → ℚ) :
    Fin b → Fin n → Fin n → Fin d → ℚ :=
  fun bi i j => FeedForward.net P lp.2 (lnVec P lp.1 (x bi i j))

/-- `PreNorm` wrapping `FeedForward`, on a 3-D sequence tensor. -/
def preNormFF3 (P : Prims) {β : Type} {ns : ℕ} (lp : LNParams d × FFParams d 4)
    (x : β → Fin ns → Fin d → ℚ) : β → Fin ns → Fin d → ℚ :=
  fun bi i => FeedForward.net P lp.2 (lnVec P lp.1 (x bi i))

/-- State of the trunk loop: the pairwise representation `x` and the
flattened MSA representation `m`. -/
abbrev TrunkState (b n mm nn d : ℕ) :=
  (Fin b → Fin n → Fin n → Fin d → ℚ) × (Fin b → Fin (mm * nn) → Fin d → ℚ)

/-- One iteration of the trunk loop, exactly as written in the source:

    x = attn(x, mask = mask) + x
    m = msa_attn(m, mask = msa_mask) + m
    x = ff(x) + x
    m = ff(m) + m

Note the last line: the source applies the *pairwise* track's
feed-forward block `ff` to `m`; the destructured `msa_ff` (and both
`cross_attn` blocks) are never used.  The value-level model covers the
executions with `mask = None` (a non-`None` sequence mask only
broadcasts for batch 1, see the shape semantics). -/
def trunkStep (P : Prims) (msaMask : Option (Fin b → Fin (mm * nn) → Bool))
    (xl : XLayer d h dh) (ml : MsaLayer d h dh)
    (st : TrunkState b n mm nn d) : TrunkState b n mm nn d :=
  let x := preNormAxial P xl.attn st.1 + st.1
  let m := preNormAttn P ml.attn st.2 msaMask + st.2
  let x2 := preNormFF4 P xl.ff x + x
  let m2 := preNormFF3 P xl.ff m + m
  (x2, m2)

/-- The trunk loop `for ... in zip(self.layers, self.msa_layers)`. -/
def trunkLoop (P : Prims) (msaMask : Option (Fin b → Fin (mm * nn) → Bool)) :
    List (XLayer d h dh) → List (MsaLayer d h dh) →
    TrunkState b n mm nn d → TrunkState b n mm nn d
  | xl :: xls, ml :: mls, st =>
      trunkLoop P msaMask xls mls (trunkStep P msaMask xl ml st)
  | _, _, st => st

/-- Spec-side loop body (from the spec's words, for claim C2): each
layer applies its first attention block, then its second attention
block ("axial self-attention, axial self-attention again" in lockstep
with "attention, attention again"), then the per-track feed-forward
blocks, with residual addition at every step. -/
def trunkStepTwice (P : Prims) (msaMask : Option (Fin b → Fin (mm * nn) → Bool))
    (xl : XLayer d h dh) (ml : MsaLayer d h dh)
    (st : TrunkState b n mm nn d) : TrunkState b n mm nn d :=
  let x := preNormAxial P xl.attn st.1 + st.1
  let x := preNormAxial P xl.cross_attn x + x
  let m := preNormAttn P ml.attn st.2 msaMask + st.2
  let m := preNormAttn P ml.cross_attn m msaMask + m
  let x2 := preNormFF4 P xl.ff x + x
  let m2 := preNormFF3 P ml.ff m + m
  (x2, m2)

/-- Spec-side trunk loop iterating `trunkStepTwice` (for claim C2). -/
def trunkLoopTwice (P : Prims) (msaMask : Option (Fin b → Fin (mm * nn) → Bool)) :
    List (XLayer d h dh) → List (MsaLayer d h dh) →
    TrunkState b n mm nn d → TrunkState b n mm nn d
  | xl :: xls, ml :: mls, st =>
      trunkLoopTwice P msaMask xls mls (trunkStepTwice P msaMask xl ml st)
  | _, _, st => st

/-- Non-layer parameters of the `Alphafold2` module: the shared token
embedding table, the positional embedding table, the final `nn.LayerNorm`
and `to_distogram_logits = nn.Linear(dim, DISTOGRAM_BUCKETS)`.  The
tables are total functions on `ℕ`; index-range checking is modelled by
the `Checked` range semantics. -/
structure ModelParams (d : ℕ) where
  token_emb : ℕ → Fin d → ℚ
  pos_emb : ℕ → Fin d → ℚ
  norm : LNParams d
  disto_w : Fin DISTOGRAM_BUCKETS → Fin d → ℚ
  disto_b : Fin DISTOGRAM_BUCKETS → ℚ

namespace Alphafold2

/-- `x = self.token_emb(seq)` followed by the in-place addition of
`self.pos_emb(torch.arange(seq.shape[1]))[None, ...]` (the positional
row broadcasts over the batch axis). -/
def embedSeq (mp : ModelParams d) (seq : Fin b → Fin n → ℕ) :
    Fin b → Fin n → Fin d → ℚ :=
  fun bi i k => mp.token_emb (seq bi i) k + mp.pos_emb i k

/-- `x[:, :, None, :]`: unsqueeze a singleton third axis. -/
def unsqueeze2 (x0 : Fin b → Fin n → Fin d → ℚ) :
    Fin b → Fin n → Fin 1 → Fin d → ℚ :=
  fun bi i _ k => x0 bi i k

/-- `x[:, None, :, :]`: unsqueeze a singleton second axis. -/
def unsqueeze1 (x0 : Fin b → Fin n → Fin d → ℚ) :
    Fin b → Fin 1 → Fin n → Fin d → ℚ :=
  fun bi _ j k => x0 bi j k

/-- Broadcast addition of a `(b, n, 1, d)` tensor and a `(b, 1, n, d)`
tensor: each size-1 axis is replicated along the other operand's axis,
giving a `(b, n, n, d)` result. -/
def bcastPairAdd (u : Fin b → Fin n → Fin 1 → Fin d → ℚ)
    (v : Fin b → Fin 1 → Fin n → Fin d → ℚ) :
    Fin b → Fin n → Fin n → Fin d → ℚ :=
  fun bi i j k => u bi i 0 k + v bi 0 j k

/-- `x = x[:, :, None, :] + x[:, None, :, :]`: the pairwise residue
grid entering the layer stack. -/
def pairRepr (x0 : Fin b → Fin n → Fin d → ℚ) :
    Fin b → Fin n → Fin n → Fin d → ℚ :=
  bcastPairAdd (unsqueeze2 x0) (unsqueeze1 x0)

/-- `m = self.token_emb(msa)` plus the broadcast positional embedding
`self.pos_emb(torch.arange(msa.shape[-1]))[None, None, ...]`
(position indexed by the within-row offset, broadcast over batch and
alignment rows). -/
def embedMsa (mp : ModelParams d) (msa : Fin b → Fin mm → Fin nn → ℕ) :
    Fin b → Fin mm → Fin nn → Fin d → ℚ :=
  fun bi r i k => mp.token_emb (msa bi r i) k + mp.pos_emb i k

/-- `rearrange(m, 'b m n d -> b (m n) d')`: flatten alignment rows and
positions into a single sequence axis (row-major, via
`finProdFinEquiv`). -/
def flattenMsa (m0 : Fin b → Fin mm → Fin nn → Fin d → ℚ) :
    Fin b → Fin (mm * nn) → Fin d → ℚ :=
  fun bi fl k =>
    let p := finProdFinEquiv.symm fl
    m0 bi p.1 p.2 k

/-- `rearrange(msa_mask, 'b m n -> b (m n)')`. -/
def flattenMsaMask (mk : Fin b → Fin mm → Fin nn → Bool) :
    Fin b → Fin (mm * nn) → Bool :=
  fun bi fl =>
    let p := finProdFinEquiv.symm fl
    mk bi p.1 p.2

/-- `Alphafold2.forward` with `mask = None` (value-level semantics of
the successful executions; a non-`None` sequence mask is covered by the
shape semantics, since it only broadcasts for batch 1): embed, build
the pairwise grid and flattened MSA, run the trunk loop, then the final
normalisation and `to_distogram_logits`.  Note the returned logits read
only the `x` component of the loop state; `m` is dropped. -/
def forward (P : Prims) (mp : ModelParams d)
    (xls : List (XLayer d h dh)) (mls : List (MsaLayer d h dh))
    (seq : Fin b → Fin n → ℕ) (msa : Fin b → Fin mm → Fin nn → ℕ)
    (msaMask : Option (Fin b → Fin mm → Fin nn → Bool)) :
    Fin b → Fin n → Fin n → Fin DISTOGRAM_BUCKETS → ℚ :=
  let x := pairRepr (embedSeq mp seq)
  let m := flattenMsa (embedMsa mp msa)
  let mmaskF := msaMask.map flattenMsaMask
  let st := trunkLoop P mmaskF xls mls (x, m)
  fun bi i j o =>
    (∑ k, mp.disto_w o k * lnVec P mp.norm (st.1 bi i j) k) + mp.disto_b o

/-- Permute the alignment rows of an MSA tensor. -/
def permRows (σ : Equiv.Perm (Fin mm)) (msa : Fin b → Fin mm → Fin nn → ℕ) :
    Fin b → Fin mm → Fin nn → ℕ :=
  fun bi r i => msa bi (σ r) i

/-- Permute the alignment rows of an MSA mask consistently. -/
def permRowsMask (σ : Equiv.Perm (Fin mm)) (mk : Fin b → Fin mm → Fin nn → Bool) :
    Fin b → Fin mm → Fin nn → Bool :=
  fun bi r i => mk bi (σ r) i

end Alphafold2

end Val

/-- Construction-time configuration of `Alphafold2.__init__`, with the
source's keyword defaults. -/
structure Config where
  dim : ℕ
  max_seq_len : ℕ := 2048
  depth : ℕ := 6
  heads : ℕ := 8
  dim_head : ℕ := 64
  num_tokens : ℕ := 21
  attn_dropout : ℚ := 0
  ff_dropout : ℚ := 0

namespace Checked

/-- Range semantics of `nn.Embedding(num_embeddings, embedding_dim)`:
a lookup of an index `≥ num_embeddings` is an out-of-range error. -/
structure Embedding where
  num_embeddings : ℕ
  embedding_dim : ℕ
  weight : ℕ → ℕ → ℚ

/-- An embedding lookup: fails fast exactly when the index is out of
range. -/
def Embedding.lookup (e : Embedding) (i : ℕ) : Option (ℕ → ℚ) :=
  if i < e.num_embeddings then some (e.weight i) else none

/-- The token-embedding table built by `Alphafold2.__init__`:
`self.token_emb = nn.Embedding(NUM_AMINO_ACIDS, dim)`.  Note it is
sized by the constant `NUM_AMINO_ACIDS`, not by `cfg.num_tokens`
(the `num_tokens` keyword is accepted but never read). -/
def mkTokenEmb (cfg : Config) (w : ℕ → ℕ → ℚ) : Embedding :=
  ⟨NUM_AMINO_ACIDS, cfg.dim, w⟩

/-- The positional-embedding table built by `Alphafold2.__init__`:
`self.pos_emb = nn.Embedding(max_seq_len, dim)`. -/
def mkPosEmb (cfg : Config) (w : ℕ → ℕ → ℚ) : Embedding :=
  ⟨cfg.max_seq_len, cfg.dim, w⟩

/-- The embedding stage applied to a flat list of token indices: the
whole lookup fails as soon as one index is out of range (the semantics
of `self.token_emb(seq)` on a tensor of indices). -/
def embedTokens (e : Embedding) (toks : List ℕ) : Option (List (ℕ → ℚ)) :=
  toks.mapM e.lookup

end Checked

namespace ShapeSem

/-- Broadcast of one dimension pair (symmetric, out-of-place ops):
equal sizes broadcast to themselves, a size-1 dimension stretches to
the other size, anything else is a shape error. -/
def bcastDim (a b : ℕ) : Option ℕ :=
  if a = b then some a else if a = 1 then some b else if b = 1 then some a else none

/-- Broadcast of two shapes given in reversed (trailing-first) order;
missing leading dimensions are treated as size 1. -/
def bcastRev : List ℕ → List ℕ → Option (List ℕ)
  | [], ys => some ys
  | x :: xs, [] => some (x :: xs)
  | x :: xs, y :: ys => do
      let dv ← bcastDim x y
      let rest ← bcastRev xs ys
      pure (dv :: rest)

/-- PyTorch/numpy broadcasting of two shapes (right-aligned). -/
def broadcastShapes (s t : List ℕ) : Option (List ℕ) :=
  (bcastRev s.reverse t.reverse).map List.reverse

/-- Whether `src` is broadcastable *to* `dst` (right-aligned, `src`
may not have more dimensions than `dst` and each `src` dimension must
be 1 or equal to the corresponding `dst` dimension): the condition
required of the mask of an in-place `masked_fill_` and of the
right-hand side of an in-place `+=`. -/
def bcastToRev : List ℕ → List ℕ → Bool
  | [], _ => true
  | _ :: _, [] => false
  | x :: xs, y :: ys => (x == y || x == 1) && bcastToRev xs ys

/-- Right-aligned version of `bcastToRev` on shapes in normal order. -/
def broadcastableTo (src dst : List ℕ) : Bool :=
  bcastToRev src.reverse dst.reverse

/-- Shape semantics of an in-place addition `x += y`: `y` must be
broadcastable to `x`'s shape, which is unchanged. -/
def addInPlaceShape (x y : List ℕ) : Option (List ℕ) :=
  if broadcastableTo y x then some x else none

/-- Shape semantics of `nn.Linear(inF, outF)`: the last dimension must
equal `inF` and becomes `outF`. -/
def linearShape (inF outF : ℕ) (s : List ℕ) : Option (List ℕ) :=
  match s.reverse with
  | [] => none
  | a :: rest => if a = inF then some ((outF :: rest).reverse) else none

/-- Shape semantics of `nn.LayerNorm(d)`: the last dimension must equal
`d`; the shape is preserved. -/
def lnShape (d : ℕ) (s : List ℕ) : Option (List ℕ) :=
  match s.reverse with
  | [] => none
  | a :: _ => if a = d then some s else none

/-- Shape semantics of `GEGLU`: `chunk(2, dim = -1)` followed by the
elementwise product halves the (even) last dimension. -/
def gegluShape (s : List ℕ) : Option (List ℕ) :=
  match s.reverse with
  | [] => none
  | a :: rest => if a % 2 = 0 then some ((a / 2 :: rest).reverse) else none

/-- Shape semantics of `FeedForward(d, mult)`. -/
def ffShape (d mult : ℕ) (s : List ℕ) : Option (List ℕ) := do
  let s1 ← linearShape d (d * mult * 2) s
  let s2 ← gegluShape s1
  linearShape (d * mult) d s2

/-- Shape semantics of `Attention.forward` on input `[b, n, d]` with an
optional rank-2 mask `[mb, mn]`.  Mirrors the code: `to_qkv` requires
the last input dimension to be `d`; `dots` has shape `[b, heads, n, n]`;
when a mask is supplied, `mask[:, None, :, None] * mask[:, None, None, :]`
is formed by broadcasting and the in-place
`dots.masked_fill_(~mask, mask_value)` requires the combined mask to be
broadcastable to `dots`'s shape; the output shape equals the input
shape. -/
def attnShape (d heads : ℕ) (xs : List ℕ) (maskS : Option (List ℕ)) :
    Option (List ℕ) :=
  match xs with
  | [b, n, dd] =>
      if dd = d then
        let dotsS := [b, heads, n, n]
        match maskS with
        | none => some [b, n, d]
        | some ms =>
            match ms with
            | [mb, mn] => do
                let combined ← broadcastShapes [mb, 1, mn, 1] [mb, 1, 1, mn]
                if broadcastableTo combined dotsS then some [b, n, d] else none
            | _ => none
      else none
  | _ => none

/-- Shape semantics of `AxialAttention.forward` on input `[b, h, w, d]`:
fold `w` into the batch and attend along `h`, fold `h` into the batch
and attend along `w` (the same mask tensor is passed to both passes),
then sum the two unfolded outputs. -/
def axialShape (d heads : ℕ) (xs : List ℕ) (maskS : Option (List ℕ)) :
    Option (List ℕ) :=
  match xs with
  | [b, hh, ww, dd] => do
      let _w ← attnShape d heads [b * ww, hh, dd] maskS
      let _h ← attnShape d heads [b * hh, ww, dd] maskS
      broadcastShapes [b, hh, ww, dd] [b, hh, ww, dd]
  | _ => none

/-- Shape semantics of a `PreNorm`-wrapped block. -/
def preNormShape (d : ℕ) (inner : List ℕ → Option (List ℕ)) (s : List ℕ) :
    Option (List ℕ) := do
  let s1 ← lnShape d s
  inner s1

/-- Shape semantics of the residual addition `f(x) + x`. -/
def residualShape (x out : List ℕ) : Option (List ℕ) :=
  broadcastShapes out x

/-- Shape semantics of one iteration of the trunk loop (the code
applies one axial attention to `x`, one attention to `m`, then the
feed-forward block to each, each with a residual). -/
def trunkLayerShape (cfg : Config) (maskS msaMaskS : Option (List ℕ))
    (xm : List ℕ × List ℕ) : Option (List ℕ × List ℕ) := do
  let xa ← preNormShape cfg.dim
    (fun s => axialShape cfg.dim cfg.heads s maskS) xm.1
  let x1 ← residualShape xm.1 xa
  let ma ← preNormShape cfg.dim
    (fun s => attnShape cfg.dim cfg.heads s msaMaskS) xm.2
  let m1 ← residualShape xm.2 ma
  let xf ← preNormShape cfg.dim (ffShape cfg.dim 4) x1
  let x2 ← residualShape x1 xf
  let mf ← preNormShape cfg.dim (ffShape cfg.dim 4) m1
  let m2 ← residualShape m1 mf
  pure (x2, m2)

/-- Iterate an `Option`-valued transformation `depth` times. -/
def iterLayers {α : Type} (f : α → Option α) : ℕ → α → Option α
  | 0, a => some a
  | k + 1, a => do
      let a1 ← f a
      iterLayers f k a1

/-- Shape/range semantics of `Alphafold2.forward`: `seq` must be rank
2, `msa` rank 3; `torch.arange(length)` indexes `pos_emb`, so each
length must be within `max_seq_len` (otherwise the embedding lookup is
out of range); then the embedding broadcasts, the pairwise grid and
flattened MSA are built, `depth` trunk layers run, and the head
projects the last axis to `DISTOGRAM_BUCKETS`. -/
def forwardShape (cfg : Config) (seqS msaS : List ℕ)
    (maskS msaMaskS : Option (List ℕ)) : Option (List ℕ) :=
  match seqS, msaS with
  | [b, n], [b2, mmm, nn] =>
      if n ≤ cfg.max_seq_len ∧ nn ≤ cfg.max_seq_len then do
        let x0 ← addInPlaceShape [b, n, cfg.dim] [1, n, cfg.dim]
        let xp ← broadcastShapes [b, n, 1, cfg.dim] [b, 1, n, cfg.dim]
        let _ ← pure x0
        let m0 ← addInPlaceShape [b2, mmm, nn, cfg.dim] [1, 1, nn, cfg.dim]
        let _ ← pure m0
        let mfl := [b2, mmm * nn, cfg.dim]
        let msaMaskF ← (match msaMaskS with
          | none => some (none : Option (List ℕ))
          | some [c, r, e] => some (some [c, r * e])
          | some _ => none)
        let st ← iterLayers (trunkLayerShape cfg maskS msaMaskF) cfg.depth (xp, mfl)
        let xn ← lnShape cfg.dim st.1
        linearShape cfg.dim DISTOGRAM_BUCKETS xn
      else none
  | _, _ => none

end ShapeSem

namespace Demo

/-- Concrete primitive interpretation used by witnesses and
counterexamples: `exp` is the constant 1 (positive everywhere), `gelu`
the constant 0, `sqrt` and the scale constant 1. -/
def P0 : Val.Prims := ⟨fun _ => 1, fun _ => 0, fun _ => 1, fun _ => 1⟩

/-- LayerNorm parameters with weight 1 and bias 1 (at `dim = 1` any
normalised vector is the zero vector, so the output is the constant
bias 1). -/
def ln1 : Val.LNParams 1 := ⟨fun _ => 1, fun _ => 1⟩

/-- Attention parameters at `dim = heads = dim_head = 1`: all `to_qkv`
and `to_out` weights 1, output bias 0. -/
def attnP1 : Val.AttnParams 1 1 1 := ⟨fun _ _ _ _ => 1, fun _ _ _ => 1, fun _ => 0⟩

/-- Axial attention built from two copies of `attnP1`. -/
def axialP1 : Val.AxialParams 1 1 1 := ⟨attnP1, attnP1⟩

/-- Feed-forward parameters whose output is the constant `c` (all
weights 0, final bias `c`). -/
def ffP (c : ℚ) : Val.FFParams 1 4 := ⟨fun _ _ _ => 0, fun _ _ => 0, fun _ _ => 0, fun _ => c⟩

/-- A pairwise-track layer whose feed-forward block outputs the
constant `c`. -/
def xLayerC (c : ℚ) : Val.XLayer 1 1 1 := ⟨(ln1, axialP1), (ln1, axialP1), (ln1, ffP c)⟩

/-- An MSA-track layer whose own feed-forward block outputs 0. -/
def mLayerC : Val.MsaLayer 1 1 1 := ⟨(ln1, attnP1), (ln1, attnP1), (ln1, ffP 0)⟩

/-- All-zero initial pairwise representation (batch 1, length 1). -/
def x0 : Fin 1 → Fin 1 → Fin 1 → Fin 1 → ℚ := fun _ _ _ _ => 0

/-- All-zero initial MSA representation (1 alignment row of length 1). -/
def m0 : Fin 1 → Fin (1 * 1) → Fin 1 → ℚ := fun _ _ _ => 0

/-- Initial trunk state for the concrete runs. -/
def st0 : Val.TrunkState 1 1 1 1 1 := (x0, m0)

/-- The pairwise output entry of one source-order trunk layer on
`st0`, with the pairwise feed-forward bias set to `c`. -/
def codeX (c : ℚ) : ℚ :=
  (Val.trunkLoop P0 none [xLayerC c] [mLayerC] st0).1 0 0 0 0

/-- The MSA output entry of one source-order trunk layer on `st0`,
with the pairwise feed-forward bias set to `c` (the MSA track's own
feed-forward bias stays 0). -/
def codeM (c : ℚ) : ℚ :=
  (Val.trunkLoop P0 none [xLayerC c] [mLayerC] st0).2 0 0 0

/-- The pairwise output entry of one spec-order (attention twice)
trunk layer on `st0`, with both feed-forward blocks outputting 0. -/
def twiceX : ℚ :=
  (Val.trunkLoopTwice P0 none [xLayerC 0] [mLayerC] st0).1 0 0 0 0

/-- Zero initial weights for the checked embedding tables. -/
def w0 : ℕ → ℕ → ℚ := fun _ _ => 0

/-- Concrete configuration for the shape-level witnesses:
`dim = depth = heads = dim_head = 1`, other fields at their source
defaults. -/
def cfg1 : Config := { dim := 1, depth := 1, heads := 1, dim_head := 1 }

end Demo

open Val

/-- The pairwise component of the trunk loop is independent of the MSA
state and of the MSA mask: no layer feeds `m` back into `x`. -/
theorem trunkLoop_fst_ignores_msa {b n mm nn d h dh : ℕ} (P : Prims)
    (xls : List (XLayer d h dh)) :
    ∀ (mls : List (MsaLayer d h dh))
      (mk1 mk2 : Option (Fin b → Fin (mm * nn) → Bool))
      (x : Fin b → Fin n → Fin n → Fin d → ℚ)
      (m1 m2 : Fin b → Fin (mm * nn) → Fin d → ℚ),
      (trunkLoop P mk1 xls mls (x, m1)).1 = (trunkLoop P mk2 xls mls (x, m2)).1 := by
  induction xls with
  | nil => intro mls mk1 mk2 x m1 m2; cases mls <;> rfl
  | cons xl xls ih =>
      intro mls mk1 mk2 x m1 m2
      cases mls with
      | nil => rfl
      | cons ml mls =>
          simp only [trunkLoop, trunkStep]
          exact ih mls mk1 mk2 _ _ _

/-- The trunk loop never reads the MSA-track feed-forward blocks:
replacing every `msa_ff` leaves both loop components unchanged. -/
theorem trunkLoop_msa_ff_unused {b n mm nn d h dh : ℕ} (P : Prims)
    (mk : Option (Fin b → Fin (mm * nn) → Bool))
    (fc : LNParams d × FFParams d 4) :
    ∀ (xls : List (XLayer d h dh)) (mls : List (MsaLayer d h dh))
      (st : TrunkState b n mm nn d),
      trunkLoop P mk xls (mls.map fun l => { l with ff := fc }) st =
        trunkLoop P mk xls mls st := by
  intro xls
  induction xls with
  | nil => intro mls st; cases mls <;> rfl
  | cons xl xls ih =>
      intro mls st
      cases mls with
      | nil => rfl
      | cons ml mls =>
          simp only [List.map_cons, trunkLoop]
          have hst : trunkStep P mk xl { ml with ff := fc } st =
              trunkStep P mk xl ml st := rfl
          rw [hst]
          exact ih mls _

/-- C1: the claim says each layer updates the MSA representation with
that layer's own MSA-track feed-forward block, with tracks never
sharing parameter storage.  The code instead executes `m = ff(m) + m`
with the pairwise track's `ff`: the first conjunct shows the trunk is
invariant under arbitrary replacement of every MSA-track feed-forward
block (so `msa_ff` is never applied), and the remaining conjuncts
evaluate a concrete one-layer run in which the MSA track's own
feed-forward outputs 0 but the MSA output entry still moves from 1 to 2
when only the pairwise track's feed-forward bias is changed from 0 to
1. -/
theorem c1_msa_ff_bug :
    (∀ (b n mm nn d h dh : ℕ) (P : Prims)
        (mk : Option (Fin b → Fin (mm * nn) → Bool))
        (fc : LNParams d × FFParams d 4)
        (xls : List (XLayer d h dh)) (mls : List (MsaLayer d h dh))
        (st : TrunkState b n mm nn d),
        trunkLoop P mk xls (mls.map fun l => { l with ff := fc }) st =
          trunkLoop P mk xls mls st) ∧
      Demo.codeM 1 = 2 ∧ Demo.codeM 0 = 1 := by
  refine ⟨fun b n mm nn d h dh P mk fc xls mls st =>
    trunkLoop_msa_ff_unused P mk fc xls mls st, ?_, ?_⟩
  · norm_num [Demo.codeM, Val.trunkLoop, Val.trunkStep, Val.preNormAxial, Val.preNormAttn,
      Val.preNormFF4, Val.preNormFF3, Val.AxialAttention.forward, Val.Attention.forward,
      Val.Attention.headOut, Val.Attention.weights, Val.Attention.scores, Val.Attention.dots,
      Val.Attention.qs, Val.Attention.ks, Val.Attention.vs, Val.FeedForward.net, Val.lnVec,
      lnEps, Demo.P0, Demo.ln1, Demo.attnP1, Demo.axialP1, Demo.ffP, Demo.xLayerC,
      Demo.mLayerC, Demo.x0, Demo.m0, Demo.st0, Fin.sum_univ_one, Fintype.sum_prod_type,
      Pi.add_apply]
  · norm_num [Demo.codeM, Val.trunkLoop, Val.trunkStep, Val.preNormAxial, Val.preNormAttn,
      Val.preNormFF4, Val.preNormFF3, Val.AxialAttention.forward, Val.Attention.forward,
      Val.Attention.headOut, Val.Attention.weights, Val.Attention.scores, Val.Attention.dots,
      Val.Attention.qs, Val.Attention.ks, Val.Attention.vs, Val.FeedForward.net, Val.lnVec,
      lnEps, Demo.P0, Demo.ln1, Demo.attnP1, Demo.axialP1, Demo.ffP, Demo.xLayerC,
      Demo.mLayerC, Demo.x0, Demo.m0, Demo.st0, Fin.sum_univ_one, Fintype.sum_prod_type,
      Pi.add_apply]

/-- C2 counterexample: on a concrete one-layer instance (batch 1,
length 1, one alignment row, `dim = heads = dim_head = 1`, feed-forward
blocks outputting 0), the spec-side loop that applies each layer's
attention twice produces pairwise entry 4 while the code's loop
produces 2, so the claim that every layer applies (axial) attention
twice before its feed-forward step is false of the code. -/
theorem c2_counterexample :
    (trunkLoopTwice Demo.P0 none [Demo.xLayerC 0] [Demo.mLayerC] Demo.st0).1 0 0 0 0 ≠
      (trunkLoop Demo.P0 none [Demo.xLayerC 0] [Demo.mLayerC] Demo.st0).1 0 0 0 0 := by
  have h1 : Demo.twiceX = 4 := by
    norm_num [Demo.twiceX, Val.trunkLoopTwice, Val.trunkStepTwice, Val.preNormAxial,
      Val.preNormAttn, Val.preNormFF4, Val.preNormFF3, Val.AxialAttention.forward,
      Val.Attention.forward, Val.Attention.headOut, Val.Attention.weights,
      Val.Attention.scores, Val.Attention.dots, Val.Attention.qs, Val.Attention.ks,
      Val.Attention.vs, Val.FeedForward.net, Val.lnVec, lnEps, Demo.P0, Demo.ln1,
      Demo.attnP1, Demo.axialP1, Demo.ffP, Demo.xLayerC, Demo.mLayerC, Demo.x0, Demo.m0,
      Demo.st0, Fin.sum_univ_one, Fintype.sum_prod_type, Pi.add_apply]
  have h2 : Demo.codeX 0 = 2 := by
    norm_num [Demo.codeX, Val.trunkLoop, Val.trunkStep, Val.preNormAxial, Val.preNormAttn,
      Val.preNormFF4, Val.preNormFF3, Val.AxialAttention.forward, Val.Attention.forward,
      Val.Attention.headOut, Val.Attention.weights, Val.Attention.scores, Val.Attention.dots,
      Val.Attention.qs, Val.Attention.ks, Val.Attention.vs, Val.FeedForward.net, Val.lnVec,
      lnEps, Demo.P0, Demo.ln1, Demo.attnP1, Demo.axialP1, Demo.ffP, Demo.xLayerC,
      Demo.mLayerC, Demo.x0, Demo.m0, Demo.st0, Fin.sum_univ_one, Fintype.sum_prod_type,
      Pi.add_apply]
  show Demo.twiceX ≠ Demo.codeX 0
  rw [h1, h2]
  norm_num

/-- C2 (amended): each trunk layer applies axial self-attention once to
the pairwise representation and standard attention once to the MSA
representation before the feed-forward updates, with residual addition
at every applied step; the second attention block allocated per layer
(`cross_attn` / `msa_cross_attn`) is never applied — the loop output is
invariant under arbitrary replacement of all of those blocks'
parameters. -/
theorem c2_layers_apply_attention_once {b n mm nn d h dh : ℕ} (P : Prims)
    (mk : Option (Fin b → Fin (mm * nn) → Bool))
    (ca : LNParams d × AxialParams d h dh)
    (cm : LNParams d × AttnParams d h dh) :
    ∀ (xls : List (XLayer d h dh)) (mls : List (MsaLayer d h dh))
      (st : TrunkState b n mm nn d),
      trunkLoop P mk (xls.map fun l => { l with cross_attn := ca })
          (mls.map fun l => { l with cross_attn := cm }) st =
        trunkLoop P mk xls mls st := by
  intro xls
  induction xls with
  | nil => intro mls st; cases mls <;> rfl
  | cons xl xls ih =>
      intro mls st
      cases mls with
      | nil => rfl
      | cons ml mls =>
          simp only [List.map_cons, trunkLoop]
          have hst : trunkStep P mk { xl with cross_attn := ca }
              { ml with cross_attn := cm } st = trunkStep P mk xl ml st := rfl
          rw [hst]
          exact ih mls _

/-- C6: in `Attention.forward` with a supplied mask, every pre-softmax
score whose query position or key position is marked invalid is set to
the most-negative representable float32 value
`-(2^24 - 1) * 2^104 = -torch.finfo(float32).max` (a finite rational,
not `-∞`), and every score whose query and key positions are both valid
is left unchanged. -/
theorem c6_mask_fill :
    (∀ {β : Type} {n d h dh : ℕ} (P : Prims) (p : AttnParams d h dh)
        (x : β → Fin n → Fin d → ℚ) (mask : β → Fin n → Bool) (b : β)
        (hi : Fin h) (i j : Fin n),
        Attention.scores P p x (some mask) b hi i j =
          if mask b i && mask b j then Attention.dots P p x b hi i j
          else -((2 ^ 24 - 1) * 2 ^ 104)) ∧
      mask_value = -((2 ^ 24 - 1) * 2 ^ 104) := by
  constructor
  · intro β n d h dh P p x mask b hi i j
    cases hmi : mask b i <;> cases hmj : mask b j <;>
      simp [Attention.scores, Attention.combineMask, hmi, hmj, mask_value, torchFloat32Max]
  · rfl

/-- C7: permuting the alignment rows of `msa` (with `msa_mask` permuted
consistently) leaves the returned distogram logits unchanged: the
output reads only the pairwise track, which never receives information
from the MSA track. -/
theorem c7_msa_permutation_invariance {b n mm nn d h dh : ℕ} (P : Prims)
    (mp : ModelParams d) (xls : List (XLayer d h dh))
    (mls : List (MsaLayer d h dh)) (seq : Fin b → Fin n → ℕ)
    (msa : Fin b → Fin mm → Fin nn → ℕ) (σ : Equiv.Perm (Fin mm))
    (msaMask : Option (Fin b → Fin mm → Fin nn → Bool)) :
    Alphafold2.forward P mp xls mls seq (Alphafold2.permRows σ msa)
        (msaMask.map (Alphafold2.permRowsMask σ)) =
      Alphafold2.forward P mp xls mls seq msa msaMask := by
  funext bi i j o
  simp only [Alphafold2.forward]
  rw [trunkLoop_fst_ignores_msa P xls mls
    ((msaMask.map (Alphafold2.permRowsMask σ)).map Alphafold2.flattenMsaMask)
    (msaMask.map Alphafold2.flattenMsaMask)
    (Alphafold2.pairRepr (Alphafold2.embedSeq mp seq))
    (Alphafold2.flattenMsa (Alphafold2.embedMsa mp (Alphafold2.permRows σ msa)))
    (Alphafold2.flattenMsa (Alphafold2.embedMsa mp msa))]

/-- C8: `AxialAttention.forward(x)` equals the elementwise sum of the
two independent 1-D attention passes — one folding the second grid axis
into the batch and attending along the first, one folding the first
axis and attending along the second — each reshaped back to the grid
shape; this holds with no mask for any grid, and with a mask in the
broadcast-accepted batch-1 square case with the same mask fed to both
passes. -/
theorem c8_axial_decomposition :
    (∀ {b hh ww d h dh : ℕ} (P : Prims) (p : AxialParams d h dh)
        (x : Fin b → Fin hh → Fin ww → Fin d → ℚ) (bi : Fin b) (i : Fin hh)
        (j : Fin ww) (k : Fin d),
        AxialAttention.forward P p x bi i j k =
          AxialAttention.widthPass P p x bi i j k +
            AxialAttention.heightPass P p x bi i j k) ∧
      (∀ {n d h dh : ℕ} (P : Prims) (p : AxialParams d h dh)
        (x : Fin 1 → Fin n → Fin n → Fin d → ℚ) (mask : Fin 1 → Fin n → Bool)
        (bi : Fin 1) (i j : Fin n) (k : Fin d),
        AxialAttention.forwardMasked P p x mask bi i j k =
          AxialAttention.widthPassMasked P p x mask bi i j k +
            AxialAttention.heightPassMasked P p x mask bi i j k) := by
  constructor <;> intros <;> rfl

/-- C9: the pairwise representation entering the layer stack is the
broadcast sum of the per-residue embedding with itself:
`x[b,i,j,:] = x0[b,i,:] + x0[b,j,:]` where `x0` is the token embedding
plus positional embedding of `seq`. -/
theorem c9_pairwise_grid {b n d : ℕ} (mp : ModelParams d)
    (seq : Fin b → Fin n → ℕ) (bi : Fin b) (i j : Fin n) (k : Fin d) :
    Alphafold2.pairRepr (Alphafold2.embedSeq mp seq) bi i j k =
      Alphafold2.embedSeq mp seq bi i k + Alphafold2.embedSeq mp seq bi j k := rfl

/-- C3: the claim says the valid token range is `[0, num_tokens)` for a
model configured with `num_tokens = v`.  The constructor instead builds
`nn.Embedding(NUM_AMINO_ACIDS, dim)`, ignoring `num_tokens`: for every
configuration the table has `NUM_AMINO_ACIDS = 21` rows, and for a
model built with `num_tokens = 30` the in-claimed-range token 25 fails
the embedding lookup. -/
theorem c3_num_tokens_bug :
    (∀ (cfg : Config) (w : ℕ → ℕ → ℚ),
        (Checked.mkTokenEmb cfg w).num_embeddings = NUM_AMINO_ACIDS) ∧
      (Checked.mkTokenEmb { dim := 8, num_tokens := 30 } Demo.w0).num_embeddings = 21 ∧
      25 < 30 ∧
      Checked.embedTokens
        (Checked.mkTokenEmb { dim := 8, num_tokens := 30 } Demo.w0) [25] = none := by
  refine ⟨fun cfg w => rfl, rfl, by norm_num, rfl⟩

/-- C10: in `Attention.forward` with a mask under which every key is
invalid for query `i` (which happens exactly when `i` itself is marked
invalid, since the combined mask is the conjunction of the query and
key masks), the whole pre-softmax score row for `i` equals the finite
`mask_value`, the post-softmax weights are exactly uniform (`1/n`
each), and the per-head output row is the uniform average of the value
vectors — a finite convex combination, with no special zero-fill. -/
theorem c10_all_masked_uniform {β : Type} {n d h dh : ℕ} (P : Prims)
    (p : AttnParams d h dh) (x : β → Fin n → Fin d → ℚ)
    (mask : β → Fin n → Bool) (b : β) (hi : Fin h) (i j : Fin n) (dd : Fin dh)
    (hexp : 0 < P.exp mask_value) (hmask : mask b i = false) :
    Attention.scores P p x (some mask) b hi i j = mask_value ∧
      Attention.weights P p x (some mask) b hi i j = 1 / (n : ℚ) ∧
      Attention.headOut P p x (some mask) b hi i dd =
        (∑ j', Attention.vs p x b hi j' dd) / (n : ℚ) := by
  have hscore : ∀ j' : Fin n,
      Attention.scores P p x (some mask) b hi i j' = mask_value := by
    intro j'
    simp [Attention.scores, Attention.combineMask, hmask]
  have hw : ∀ j' : Fin n,
      Attention.weights P p x (some mask) b hi i j' = 1 / (n : ℚ) := by
    intro j'
    simp only [Attention.weights, hscore]
    rw [Finset.sum_const, Finset.card_univ, Fintype.card_fin, nsmul_eq_mul,
      mul_comm, ← div_div, div_self (ne_of_gt hexp)]
  refine ⟨hscore j, hw j, ?_⟩
  simp only [Attention.headOut]
  rw [Finset.sum_congr rfl fun j' _ => by rw [hw j'], ← Finset.mul_sum,
    one_div_mul_eq_div]

/-- C10 witness: a concrete all-invalid mask at `n = 2` with the
constant-1 `exp`, where the theorem yields exactly uniform weights
`1/2`. -/
theorem c10_all_masked_uniform_witness :
    0 < Demo.P0.exp mask_value ∧
      Attention.weights Demo.P0 Demo.attnP1
        (fun (_ : Fin 1) (_ : Fin 2) (_ : Fin 1) => (0 : ℚ))
        (some fun _ _ => false) 0 0 0 0 = 1 / ((2 : ℕ) : ℚ) := by
  constructor
  · norm_num [Demo.P0]
  · exact (c10_all_masked_uniform Demo.P0 Demo.attnP1
      (fun _ _ _ => 0) (fun _ _ => false) 0 0 0 0 0
      (by norm_num [Demo.P0]) rfl).2.1

namespace ShapeSem

theorem bcastDim_self (a : ℕ) : bcastDim a a = some a := by
  simp [bcastDim]

theorem bcastDim_one_left (a : ℕ) : bcastDim 1 a = some a := by
  unfold bcastDim
  split_ifs with h1 h2 <;> simp_all

theorem bcastDim_one_right (a : ℕ) : bcastDim a 1 = some a := by
  unfold bcastDim
  split_ifs with h1 h2 <;> simp_all

theorem bcastRev_self (xs : List ℕ) : bcastRev xs xs = some xs := by
  induction xs with
  | nil => rfl
  | cons x xs ih => simp [bcastRev, bcastDim_self, ih]

theorem broadcastShapes_self (s : List ℕ) : broadcastShapes s s = some s := by
  simp [broadcastShapes, bcastRev_self]

theorem linearShape_4 (inF outF a b c : ℕ) :
    linearShape inF outF [a, b, c, inF] = some [a, b, c, outF] := by
  simp [linearShape]

theorem linearShape_3 (inF outF a b : ℕ) :
    linearShape inF outF [a, b, inF] = some [a, b, outF] := by
  simp [linearShape]

theorem lnShape_4 (dm a b c : ℕ) : lnShape dm [a, b, c, dm] = some [a, b, c, dm] := by
  simp [lnShape]

theorem lnShape_3 (dm a b : ℕ) : lnShape dm [a, b, dm] = some [a, b, dm] := by
  simp [lnShape]

theorem gegluShape_4 (a b c k : ℕ) : gegluShape [a, b, c, 2 * k] = some [a, b, c, k] := by
  have h1 : 2 * k % 2 = 0 := by omega
  have h2 : 2 * k / 2 = k := by omega
  simp [gegluShape, h1, h2]

theorem gegluShape_3 (a b k : ℕ) : gegluShape [a, b, 2 * k] = some [a, b, k] := by
  have h1 : 2 * k % 2 = 0 := by omega
  have h2 : 2 * k / 2 = k := by omega
  simp [gegluShape, h1, h2]

theorem ffShape_4 (dm mult a b c : ℕ) : ffShape dm mult [a, b, c, dm] = some [a, b, c, dm] := by
  have h : dm * mult * 2 = 2 * (dm * mult) := by ring
  simp [ffShape, linearShape_4, h, gegluShape_4]

theorem ffShape_3 (dm mult a b : ℕ) : ffShape dm mult [a, b, dm] = some [a, b, dm] := by
  have h : dm * mult * 2 = 2 * (dm * mult) := by ring
  simp [ffShape, linearShape_3, h, gegluShape_3]

theorem attnShape_nomask (dm heads bb nn : ℕ) :
    attnShape dm heads [bb, nn, dm] none = some [bb, nn, dm] := by
  simp [attnShape]

/-- The combined mask `mask[:, None, :, None] * mask[:, None, None, :]`
of a rank-2 mask `[mb, mn]` has shape `[mb, 1, mn, mn]`: the batch
dimension of the mask is kept. -/
theorem broadcastShapes_maskpair (mb mn : ℕ) :
    broadcastShapes [mb, 1, mn, 1] [mb, 1, 1, mn] = some [mb, 1, mn, mn] := by
  simp [broadcastShapes, bcastRev, bcastDim_self, bcastDim_one_left, bcastDim_one_right]

/-- The in-place `masked_fill_` of a `[b, 1, nn, nn]` combined mask
into `[bb, heads, nn, nn]` scores is accepted exactly when `b = bb` or
`b = 1`. -/
theorem broadcastableTo_mask (b heads bb nn : ℕ) :
    broadcastableTo [b, 1, nn, nn] [bb, heads, nn, nn] = (b == bb || b == 1) := by
  simp [broadcastableTo, bcastToRev]

theorem attnShape_masked (dm heads bb b nn : ℕ) :
    attnShape dm heads [bb, nn, dm] (some [b, nn]) =
      if b == bb || b == 1 then some [bb, nn, dm] else none := by
  simp [attnShape, broadcastShapes_maskpair, broadcastableTo_mask]

theorem axialShape_nomask (dm heads bb hh ww : ℕ) :
    axialShape dm heads [bb, hh, ww, dm] none = some [bb, hh, ww, dm] := by
  simp [axialShape, attnShape_nomask, broadcastShapes_self]

/-- Inside `AxialAttention` on a square `[b, nn, nn, dm]` grid, the
folded attention receives batch dimension `b * nn`, so a rank-2 mask
with batch dimension `b` is accepted exactly when `b = b * nn` or
`b = 1`. -/
theorem axialShape_masked (dm heads b nn : ℕ) :
    axialShape dm heads [b, nn, nn, dm] (some [b, nn]) =
      if b == b * nn || b == 1 then some [b, nn, nn, dm] else none := by
  cases hc : (b == b * nn || b == 1) <;>
    simp [axialShape, attnShape_masked, hc, broadcastShapes_self]

theorem trunkLayerShape_nomask (cfg : Config) (b nn b2 M : ℕ) :
    trunkLayerShape cfg none none ([b, nn, nn, cfg.dim], [b2, M, cfg.dim]) =
      some ([b, nn, nn, cfg.dim], [b2, M, cfg.dim]) := by
  simp [trunkLayerShape, preNormShape, lnShape_4, lnShape_3, axialShape_nomask,
    attnShape_nomask, residualShape, broadcastShapes_self, ffShape_4, ffShape_3]

theorem trunkLayerShape_masked (cfg : Config) (b nn b2 M : ℕ) :
    trunkLayerShape cfg (some [b, nn]) none ([b, nn, nn, cfg.dim], [b2, M, cfg.dim]) =
      if b == b * nn || b == 1 then some ([b, nn, nn, cfg.dim], [b2, M, cfg.dim])
      else none := by
  cases hc : (b == b * nn || b == 1) <;>
    simp [trunkLayerShape, preNormShape, lnShape_4, lnShape_3, axialShape_masked, hc,
      attnShape_nomask, residualShape, broadcastShapes_self, ffShape_4, ffShape_3]

theorem iterLayers_fixed {α : Type} (f : α → Option α) (a : α) (hf : f a = some a) :
    ∀ k, iterLayers f k a = some a := by
  intro k
  induction k with
  | zero => rfl
  | succ k ih => simp [iterLayers, hf, ih]

theorem iterLayers_none {α : Type} (f : α → Option α) (a : α) (hf : f a = none) (k : ℕ) :
    iterLayers f (k + 1) a = none := by
  simp [iterLayers, hf]

theorem addInPlaceShape_emb (b nn dm : ℕ) :
    addInPlaceShape [b, nn, dm] [1, nn, dm] = some [b, nn, dm] := by
  simp [addInPlaceShape, broadcastableTo, bcastToRev]

theorem addInPlaceShape_msa (b2 mmm nn dm : ℕ) :
    addInPlaceShape [b2, mmm, nn, dm] [1, 1, nn, dm] = some [b2, mmm, nn, dm] := by
  simp [addInPlaceShape, broadcastableTo, bcastToRev]

theorem broadcastShapes_pairgrid (b nn dm : ℕ) :
    broadcastShapes [b, nn, 1, dm] [b, 1, nn, dm] = some [b, nn, nn, dm] := by
  simp [broadcastShapes, bcastRev, bcastDim_self, bcastDim_one_left, bcastDim_one_right]

/-- With a sequence mask, the forward shape computation succeeds
(yielding the distogram shape) whenever `b = b * n` or `b = 1`. -/
theorem forwardShape_masked_ok (cfg : Config) (b n mm : ℕ) (hn : n ≤ cfg.max_seq_len)
    (hc : (b == b * n || b == 1) = true) :
    forwardShape cfg [b, n] [b, mm, n] (some [b, n]) none = some [b, n, n, 37] := by
  have hlayer : trunkLayerShape cfg (some [b, n]) none
      ([b, n, n, cfg.dim], [b, mm * n, cfg.dim]) =
      some ([b, n, n, cfg.dim], [b, mm * n, cfg.dim]) := by
    rw [trunkLayerShape_masked, if_pos]
    exact hc
  have hiter := iterLayers_fixed (trunkLayerShape cfg (some [b, n]) none)
    ([b, n, n, cfg.dim], [b, mm * n, cfg.dim]) hlayer cfg.depth
  simp [forwardShape, hn, addInPlaceShape_emb, addInPlaceShape_msa,
    broadcastShapes_pairgrid, hiter, lnShape_4, linearShape_4, DISTOGRAM_BUCKETS]

/-- With a sequence mask, if neither `b = b * n` nor `b = 1` holds and
at least one layer runs, the first layer's `masked_fill_` fails and the
forward shape computation returns `none`. -/
theorem forwardShape_masked_fails (cfg : Config) (b n mm : ℕ)
    (hn : n ≤ cfg.max_seq_len) (hc : (b == b * n || b == 1) = false)
    (hd : 1 ≤ cfg.depth) :
    forwardShape cfg [b, n] [b, mm, n] (some [b, n]) none = none := by
  have hlayer : trunkLayerShape cfg (some [b, n]) none
      ([b, n, n, cfg.dim], [b, mm * n, cfg.dim]) = none := by
    rw [trunkLayerShape_masked, if_neg]
    simp [hc]
  obtain ⟨k, hk⟩ := Nat.exists_eq_add_of_le hd
  have hiter : iterLayers (trunkLayerShape cfg (some [b, n]) none) cfg.depth
      ([b, n, n, cfg.dim], [b, mm * n, cfg.dim]) = none := by
    rw [hk, Nat.add_comm]
    exact iterLayers_none _ _ hlayer k
  simp [forwardShape, hn, addInPlaceShape_emb, addInPlaceShape_msa,
    broadcastShapes_pairgrid, hiter, lnShape_4, linearShape_4]

end ShapeSem

/-- C4 (amended): for a forward call with a non-`None` sequence mask
(batch `b ≥ 1`, length `n ≥ 1` within the positional capacity, and at
least one trunk layer), the in-place masked fill inside axial attention
fails to broadcast — the mask combination keeps batch dimension `b`
(shape `(b, 1, n, n)`) while the folded scores have batch dimension
`b * n` — exactly when `b ≥ 2` and `n ≥ 2`; the call succeeds when
`b = 1` or `n = 1` (not only when `b = 1`, as the claim's final clause
states). -/
theorem c4_mask_broadcast (cfg : Config) (b n mm : ℕ) (hb : 1 ≤ b) (hn1 : 1 ≤ n)
    (hd : 1 ≤ cfg.depth) (hn : n ≤ cfg.max_seq_len) :
    (ShapeSem.forwardShape cfg [b, n] [b, mm, n] (some [b, n]) none = none) ↔
      (2 ≤ b ∧ 2 ≤ n) := by
  constructor
  · intro h
    by_contra hcon
    have hor : b = 1 ∨ n = 1 := by omega
    have hc : (b == b * n || b == 1) = true := by
      rcases hor with h1 | h1
      · simp [h1]
      · simp [h1]
    rw [ShapeSem.forwardShape_masked_ok cfg b n mm hn hc] at h
    exact absurd h (by simp)
  · rintro ⟨h2b, h2n⟩
    have hbn : b * 2 ≤ b * n := Nat.mul_le_mul_left b h2n
    have hne1 : b ≠ b * n := by omega
    have hne2 : b ≠ 1 := by omega
    have hc : (b == b * n || b == 1) = false := by
      simp [hne1, hne2]
    exact ShapeSem.forwardShape_masked_fails cfg b n mm hn hc hd

/-- C4 witness: at `b = n = 2` with one layer, the masked forward
fails. -/
theorem c4_mask_broadcast_witness :
    ShapeSem.forwardShape Demo.cfg1 [2, 2] [2, 1, 2] (some [2, 2]) none = none :=
  (c4_mask_broadcast Demo.cfg1 2 2 1 (by decide) (by decide) (by decide)
    (by decide)).mpr (by decide)

/-- C4 counterexample to the claim as stated: its final clause says a
forward call with a sequence mask only succeeds when `b = 1`, but at
`b = 2, n = 1` the combined mask shape `(2, 1, 1, 1)` broadcasts into
the folded scores of shape `(2, heads, 1, 1)` and the masked forward
succeeds. -/
theorem c4_counterexample :
    ShapeSem.forwardShape Demo.cfg1 [2, 1] [2, 1, 1] (some [2, 1]) none =
      some [2, 1, 1, 37] := by
  decide

/-- C5: for every configuration and every batch/length/alignment count
(with the length within the configured positional capacity), the
forward shape computation returns exactly `(batch, length, length, 37)`:
the last axis is the constant `DISTOGRAM_BUCKETS = 37` regardless of
any configuration option. -/
theorem c5_output_shape (cfg : Config) (b n mm : ℕ) (hn : n ≤ cfg.max_seq_len) :
    ShapeSem.forwardShape cfg [b, n] [b, mm, n] none none = some [b, n, n, 37] := by
  have hiter := ShapeSem.iterLayers_fixed
    (ShapeSem.trunkLayerShape cfg none none)
    ([b, n, n, cfg.dim], [b, mm * n, cfg.dim])
    (ShapeSem.trunkLayerShape_nomask cfg b n b (mm * n)) cfg.depth
  simp [ShapeSem.forwardShape, hn, ShapeSem.addInPlaceShape_emb,
    ShapeSem.addInPlaceShape_msa, ShapeSem.broadcastShapes_pairgrid, hiter,
    ShapeSem.lnShape_4, ShapeSem.linearShape_4, DISTOGRAM_BUCKETS]

/-- C5 witness: a concrete configuration (`dim = depth = heads =
dim_head = 1`) at `b = n = mm = 1`. -/
theorem c5_output_shape_witness :
    ShapeSem.forwardShape Demo.cfg1 [1, 1] [1, 1, 1] none none =
      some [1, 1, 1, 37] :=
  c5_output_shape Demo.cfg1 1 1 1 (by decide)
